import Mathlib

/-!
# Matroska demuxer wrapper: source registry, I/O callbacks, demuxer operations

A shallow embedding of the Go package `matroska` (`io.go`, `util.go`,
`matroska.go`, `types.go`).

* The package-global `ioTable` is a finite map from keys to `io.ReadSeeker`
  interface values.  An interface value is a reference to a mutable object, so
  the embedding keeps a table from keys to references and a heap from
  references to object states.
* Every method call made on a source is appended to `World.calls`, so that
  statements such as "no seek is issued" can be expressed.
* The parsing engine (Haali's MatroskaParser, C code) is an external
  collaborator: it appears as a record of answers, and where it drives I/O it
  is a program over the three callbacks.
-/

namespace Matroska

/-! ## Go and C scalars -/

/-- Go `error` values as far as the package tells them apart: the sentinel
`io.EOF` and errors made by `fmt.Errorf`. -/
inductive GoError where
  | EOF
  | Errorf (msg : String)
  deriving DecidableEq, Repr

/-- The constant `io.SeekStart`. -/
def SeekStart : Int := 0

/-- The constant `io.SeekCurrent`. -/
def SeekCurrent : Int := 1

/-- The constant `io.SeekEnd`. -/
def SeekEnd : Int := 2

/-- The conversion `C.int(n)` of a Go `int`: the value is reduced to 32 bits,
two's complement. -/
def toCInt (n : Int) : Int := (n + 2 ^ 31) % 2 ^ 32 - 2 ^ 31

/-- The conversion `int64(cpos)` of a `C.ulonglong`: the 64-bit pattern is
reinterpreted as signed. -/
def toInt64 (cpos : Nat) : Int :=
  if cpos % 2 ^ 64 < 2 ^ 63 then (cpos % 2 ^ 64 : Nat) else (cpos % 2 ^ 64 : Nat) - 2 ^ 64

/-! ## Byte sources (`io.Reader`, `io.ReadSeeker`) -/

/-- What `Read(p)` produces: the state of the source afterwards, the bytes it
stored at the front of `p`, and the Go results `(n, err)`. -/
structure ReadRet (σ : Type) where
  s : σ
  p : List UInt8
  n : Int
  err : Option GoError

/-- What `Seek(offset, whence)` produces: the state of the source afterwards
and the Go results `(offset, err)`. -/
structure SeekRet (σ : Type) where
  s : σ
  off : Int
  err : Option GoError

/-- The interface `io.Reader` over object states `ρ`; `Read` receives `len(p)`. -/
structure Reader (ρ : Type) where
  Read : ρ → Int → ReadRet ρ

/-- The interface `io.ReadSeeker` over object states `σ`. -/
structure ReadSeeker (σ : Type) where
  Read : σ → Int → ReadRet σ
  Seek : σ → Int → Int → SeekRet σ

/-! ## `util.go` -/

/-- The struct `fakeSeeker`: a wrapped `io.Reader` (its state is carried in
the field). -/
structure fakeSeeker (ρ : Type) where
  r : ρ

/-- The method `(*fakeSeeker).Read`: `return f.r.Read(p)`. -/
def fakeSeeker.Read {ρ : Type} (rd : Reader ρ) (f : fakeSeeker ρ) (p : Int) :
    ReadRet (fakeSeeker ρ) :=
  let res := rd.Read f.r p
  { s := { r := res.s }, p := res.p, n := res.n, err := res.err }

/-- The method `(*fakeSeeker).Seek`:
`return -1, fmt.Errorf("this is a fake seeker")`. -/
def fakeSeeker.Seek {ρ : Type} (f : fakeSeeker ρ) (_offset : Int) (_whence : Int) :
    SeekRet (fakeSeeker ρ) :=
  { s := f, off := -1, err := some (GoError.Errorf "this is a fake seeker") }

/-- Dynamic dispatch over the sources a registry may hold at once: a
`fakeSeeker` around a reader with states `ρ`, or a host source with states
`σ`. -/
def dispatch {ρ σ : Type} (rd : Reader ρ) (rs : ReadSeeker σ) :
    ReadSeeker (fakeSeeker ρ ⊕ σ) where
  Read := fun s p =>
    match s with
    | Sum.inl f =>
      let res := fakeSeeker.Read rd f p
      { s := Sum.inl res.s, p := res.p, n := res.n, err := res.err }
    | Sum.inr x =>
      let res := rs.Read x p
      { s := Sum.inr res.s, p := res.p, n := res.n, err := res.err }
  Seek := fun s offset whence =>
    match s with
    | Sum.inl f =>
      let res := fakeSeeker.Seek f offset whence
      { s := Sum.inl res.s, off := res.off, err := res.err }
    | Sum.inr x =>
      let res := rs.Seek x offset whence
      { s := Sum.inr res.s, off := res.off, err := res.err }

/-! ## `io.go`: the registry -/

/-- A reference to a source object. -/
abbrev Ref := Nat

/-- A method call issued on a source. -/
inductive Call where
  | Read (len : Int)
  | Seek (offset : Int) (whence : Int)
  deriving DecidableEq, Repr

/-- The state the callbacks work on: the global `ioTable`, the states of the
source objects, and the log of method calls issued on them so far. -/
structure World (σ : Type) where
  ioTable : String → Option Ref
  heap : Ref → σ
  calls : List (Ref × Call)

/-- The function `addReader`: `ioTable[key] = r`. -/
def addReader {σ : Type} (w : World σ) (key : String) (r : Ref) : World σ :=
  { w with ioTable := fun k => if k = key then some r else w.ioTable k }

/-- The function `delReader`: `delete(ioTable, key)`. -/
def delReader {σ : Type} (w : World σ) (key : String) : World σ :=
  { w with ioTable := fun k => if k = key then none else w.ioTable k }

/-- The function `getReader`: the entry, or the error "invalid reader key". -/
def getReader {σ : Type} (w : World σ) (key : String) : Except GoError Ref :=
  match w.ioTable key with
  | none => Except.error (GoError.Errorf "invalid reader key")
  | some ret => Except.ok ret

/-- The method call `r.Read(gb)` on the object behind `r`, with `len(gb) = len`. -/
def World.Read {σ : Type} (rs : ReadSeeker σ) (w : World σ) (r : Ref) (len : Int) :
    World σ × ReadRet σ :=
  let res := rs.Read (w.heap r) len
  ({ w with heap := Function.update w.heap r res.s, calls := w.calls ++ [(r, Call.Read len)] },
    res)

/-- The method call `r.Seek(offset, whence)` on the object behind `r`. -/
def World.Seek {σ : Type} (rs : ReadSeeker σ) (w : World σ) (r : Ref) (offset whence : Int) :
    World σ × SeekRet σ :=
  let res := rs.Seek (w.heap r) offset whence
  ({ w with heap := Function.update w.heap r res.s,
            calls := w.calls ++ [(r, Call.Seek offset whence)] },
    res)

/-! ## `io.go`: the callbacks -/

/-- What `cReadCallback` leaves behind: the world, the bytes stored into
`buf`, and the returned `C.int`. -/
structure CRead (σ : Type) where
  w : World σ
  buf : List UInt8
  ret : Int

/-- The exported function `cReadCallback`. -/
def cReadCallback {σ : Type} (rs : ReadSeeker σ) (w : World σ) (ckey : String) (size : Int) :
    CRead σ :=
  match getReader w ckey with
  | Except.error _ => { w := w, buf := [], ret := -1 }
  | Except.ok r =>
    let (w1, res) := World.Read rs w r size
    if res.err ≠ none ∧ res.err ≠ some GoError.EOF then
      { w := w1, buf := res.p, ret := -1 }
    else
      { w := w1, buf := res.p, ret := toCInt res.n }

/-- The exported function `cSeekCallback`. -/
def cSeekCallback {σ : Type} (rs : ReadSeeker σ) (w : World σ) (ckey : String) (cpos : Nat) :
    World σ × Int :=
  match getReader w ckey with
  | Except.error _ => (w, -1)
  | Except.ok r =>
    let pos := toInt64 cpos
    let (w1, res) := World.Seek rs w r pos SeekStart
    if res.err ≠ none then (w1, -1) else (w1, 0)

/-- The exported function `cSizeCallback`.  The returned `C.longlong(endPos)`
is `endPos` itself, both being 64-bit signed. -/
def cSizeCallback {σ : Type} (rs : ReadSeeker σ) (w : World σ) (ckey : String) :
    World σ × Int :=
  match getReader w ckey with
  | Except.error _ => (w, -1)
  | Except.ok r =>
    let (w1, r1) := World.Seek rs w r 0 SeekCurrent
    if r1.err ≠ none then (w1, -1) else
    let pos := r1.off
    let (w2, r2) := World.Seek rs w1 r 0 SeekEnd
    if r2.err ≠ none then (w2, -1) else
    let endPos := r2.off
    let (w3, r3) := World.Seek rs w2 r pos SeekStart
    if r3.err ≠ none then (w3, -1) else
    (w3, endPos)

/-! ## A host source for concrete runs -/

/-- An in-memory host source in the manner of `bytes.Reader`: the bytes, the
read offset, and whether the length can be measured (`Seek` relative to the
end fails when it cannot). -/
structure memSource where
  data : List UInt8
  off : Nat
  sized : Bool
  deriving DecidableEq, Repr

/-- Reading an in-memory source: at or past the end `(0, io.EOF)`, otherwise
as many bytes as fit, advancing the offset. -/
def memSource.Read (m : memSource) (len : Int) : ReadRet memSource :=
  if m.data.length ≤ m.off then
    { s := m, p := [], n := 0, err := some GoError.EOF }
  else
    let bytes := (m.data.drop m.off).take len.toNat
    { s := { m with off := m.off + bytes.length }, p := bytes, n := bytes.length, err := none }

/-- Seeking an in-memory source, after `io.Seeker`: the new offset is
`offset` from the start, from the current offset or from the end; a negative
result, an unknown whence, or an unmeasurable end is an error. -/
def memSource.Seek (m : memSource) (offset whence : Int) : SeekRet memSource :=
  let fail (msg : String) : SeekRet memSource :=
    { s := m, off := 0, err := some (GoError.Errorf msg) }
  let move (abs : Int) : SeekRet memSource :=
    if abs < 0 then fail "negative position"
    else { s := { m with off := abs.toNat }, off := abs, err := none }
  if whence = SeekStart then move offset
  else if whence = SeekCurrent then move (m.off + offset)
  else if whence = SeekEnd then
    if m.sized then move (m.data.length + offset) else fail "unknown length"
  else fail "invalid whence"

/-- The in-memory source as an `io.ReadSeeker`. -/
def memSource.ops : ReadSeeker memSource where
  Read := memSource.Read
  Seek := memSource.Seek

/-- A source whose every `Read` fails with an error other than `io.EOF` and
whose every `Seek` succeeds at offset 0. -/
def brokenSource : ReadSeeker Unit where
  Read := fun s _ => { s := s, p := [], n := 0, err := some (GoError.Errorf "read failed") }
  Seek := fun s _ _ => { s := s, off := 0, err := none }

/-- A world with one in-memory source of five bytes, read up to offset 2,
registered under the key "k1". -/
def demoWorld : World memSource where
  ioTable := fun k => if k = "k1" then some 0 else none
  heap := fun _ => { data := [10, 11, 12, 13, 14], off := 2, sized := true }
  calls := []

/-- A world with one broken source registered under the key "k1". -/
def brokenWorld : World Unit where
  ioTable := fun k => if k = "k1" then some 0 else none
  heap := fun _ => ()
  calls := []

/-- The contract of `io.Seeker` and `io.Reader` for a source whose state is
made of a content that seeking leaves alone and a read offset: a successful
`Seek` returns the new offset, which is `offset` for `io.SeekStart` and the
old offset plus `offset` for `io.SeekCurrent`, and what a `Read` delivers is
determined by content and offset. -/
structure SeekerContract {σ κ : Type} (rs : ReadSeeker σ) (content : σ → κ)
    (offset : σ → Int) : Prop where
  seek_reports : ∀ s o wh, (rs.Seek s o wh).err = none →
    (rs.Seek s o wh).off = offset (rs.Seek s o wh).s
  seek_start : ∀ s o, (rs.Seek s o SeekStart).err = none → (rs.Seek s o SeekStart).off = o
  seek_current : ∀ s o, (rs.Seek s o SeekCurrent).err = none →
    (rs.Seek s o SeekCurrent).off = offset s + o
  seek_content : ∀ s o wh, (rs.Seek s o wh).err = none → content (rs.Seek s o wh).s = content s
  read_determined : ∀ s t len, content s = content t → offset s = offset t →
    (rs.Read s len).p = (rs.Read t len).p ∧ (rs.Read s len).n = (rs.Read t len).n ∧
    (rs.Read s len).err = (rs.Read t len).err

/-- A world with one in-memory source whose length cannot be measured,
read up to offset 2, registered under the key "k1". -/
def unsizedWorld : World memSource where
  ioTable := fun k => if k = "k1" then some 0 else none
  heap := fun _ => { data := [10, 11, 12, 13, 14], off := 2, sized := false }
  calls := []

/-- A reader that always delivers the single byte 7. -/
def sevens : Reader Unit where
  Read := fun s _ => { s := s, p := [7], n := 1, err := none }

/-- A world with one `fakeSeeker` around `sevens` registered under "k1". -/
def streamWorld : World (fakeSeeker Unit ⊕ memSource) where
  ioTable := fun k => if k = "k1" then some 0 else none
  heap := fun _ => Sum.inl { r := () }
  calls := []

/-! ## Chapters: `types.go` and the engine's records -/

/-- Go strings. -/
abbrev GoString := String

/-- The struct `ChapterDisplay`. -/
structure ChapterDisplay where
  String : GoString
  Language : GoString
  Country : GoString
  deriving DecidableEq, Repr

/-- The struct `ChapterCommand`. -/
structure ChapterCommand where
  Time : Nat
  Command : List UInt8
  deriving DecidableEq, Repr

/-- The struct `ChapterProcess`. -/
structure ChapterProcess where
  CodecID : Nat
  CodecPrivate : List UInt8
  Commands : List ChapterCommand
  deriving DecidableEq, Repr

/-- The struct `Chapter`; `Children` owns the child chapters. -/
inductive Chapter where
  | mk (UID Start End : Nat) (Tracks : List Nat) (Display : List ChapterDisplay)
      (Children : List Chapter) (Process : List ChapterProcess) (SegmentUID : List UInt8)
      (Hidden Enabled Default Ordered : Bool)

/-- The field `Tracks` of a `Chapter`. -/
def Chapter.Tracks : Chapter → List Nat
  | Chapter.mk _ _ _ tracks _ _ _ _ _ _ _ _ => tracks

/-- The field `Display` of a `Chapter`. -/
def Chapter.Display : Chapter → List ChapterDisplay
  | Chapter.mk _ _ _ _ display _ _ _ _ _ _ _ => display

/-- The field `Children` of a `Chapter`. -/
def Chapter.Children : Chapter → List Chapter
  | Chapter.mk _ _ _ _ _ children _ _ _ _ _ _ => children

/-- The field `Process` of a `Chapter`. -/
def Chapter.Process : Chapter → List ChapterProcess
  | Chapter.mk _ _ _ _ _ _ process _ _ _ _ _ => process

/-- Modelled from the spec: the engine's record `struct ChapterDisplay` of
`MatroskaParser.h`, which is not among the sources. -/
structure CChapterDisplay where
  String : GoString
  Language : GoString
  Country : GoString
  deriving DecidableEq, Repr

/-- Modelled from the spec: the engine's record `struct ChapterCommand` of
`MatroskaParser.h`, which is not among the sources. -/
structure CChapterCommand where
  Time : Nat
  Command : List UInt8
  deriving DecidableEq, Repr

/-- Modelled from the spec: the engine's record `struct ChapterProcess` of
`MatroskaParser.h`, which is not among the sources: the count `nCommands`
and the memory at the pointer `Commands`. -/
structure CChapterProcess where
  CodecID : Nat
  CodecPrivate : List UInt8
  nCommands : Nat
  Commands : List CChapterCommand
  deriving DecidableEq, Repr

/-- Modelled from the spec: the engine's record `struct Chapter` of
`MatroskaParser.h`, which is not among the sources.  Each count (a C
`unsigned`) comes with the memory at the pointer it describes, as a list of
the records stored there. -/
inductive CChapter where
  | mk (UID Start End : Nat) (nTracks : Nat) (Tracks : List Nat)
      (nDisplay : Nat) (Display : List CChapterDisplay)
      (nChildren : Nat) (Children : List CChapter)
      (nProcess : Nat) (Process : List CChapterProcess) (SegmentUID : List UInt8)
      (Hidden Enabled Default Ordered : Bool)

/-- Modelled from the spec: the helper `convertPartialChapter` of
`convert.go`, which is not among the sources: it copies the scalar fields and
leaves the four slices unset. -/
def convertPartialChapter : CChapter → Chapter
  | CChapter.mk uid start end_ _ _ _ _ _ _ _ _ segmentUID hidden enabled default_ ordered =>
    Chapter.mk uid start end_ [] [] [] [] segmentUID hidden enabled default_ ordered

/-- Modelled from the spec: the helper `convertChapterDisplay` of
`convert.go`, which is not among the sources. -/
def convertChapterDisplay (d : CChapterDisplay) : ChapterDisplay :=
  { String := d.String, Language := d.Language, Country := d.Country }

/-- Modelled from the spec: the helper `convertPartialChapterProcess` of
`convert.go`, which is not among the sources: it copies the scalar fields and
leaves `Commands` unset. -/
def convertPartialChapterProcess (p : CChapterProcess) : ChapterProcess :=
  { CodecID := p.CodecID, CodecPrivate := p.CodecPrivate, Commands := [] }

/-- Modelled from the spec: the helper `convertChapterCommand` of
`convert.go`, which is not among the sources. -/
def convertChapterCommand (c : CChapterCommand) : ChapterCommand :=
  { Time := c.Time, Command := c.Command }

/-- The loop `for j := 0; j < n; j++ { out[j] = body(slice[j]) }` over the
slice that a `reflect.SliceHeader` lays over the memory `mem` with length
`n`.  Reading an index beyond the memory is a fault (`none`). -/
def sliceLoop {α β : Type} (body : α → Option β) : List α → Nat → Option (List β)
  | _, 0 => some []
  | [], _ + 1 => none
  | a :: rest, n + 1 =>
    match body a, sliceLoop body rest n with
    | some b, some bs => some (b :: bs)
    | _, _ => none

/-- The body of the loop over `processSlice` in `processChapters`: the partial
conversion, then the commands, one by one. -/
def processChapterProcess (p : CChapterProcess) : Option ChapterProcess :=
  let ret := convertPartialChapterProcess p
  match sliceLoop (fun c => some (convertChapterCommand c)) p.Commands p.nCommands with
  | some commands => some { ret with Commands := commands }
  | none => none

mutual
/-- The body of the outer loop of `processChapters` for one record: the
partial conversion, the children (only when `nChildren > 0`), then tracks,
display entries and processes. -/
def processChapter : CChapter → Option Chapter
  | CChapter.mk uid start end_ nTracks tracks nDisplay display nChildren children
      nProcess process segmentUID hidden enabled default_ ordered =>
    let ret := convertPartialChapter
      (CChapter.mk uid start end_ nTracks tracks nDisplay display nChildren children
        nProcess process segmentUID hidden enabled default_ ordered)
    match (if nChildren > 0 then processChapters children nChildren else some ret.Children),
        sliceLoop (fun t => some t) tracks nTracks,
        sliceLoop (fun d => some (convertChapterDisplay d)) display nDisplay,
        sliceLoop processChapterProcess process nProcess with
    | some retChildren, some retTracks, some retDisplay, some retProcess =>
      some (Chapter.mk uid start end_ retTracks retDisplay retChildren retProcess
        segmentUID hidden enabled default_ ordered)
    | _, _, _, _ => none
/-- The function `processChapters(chapters, count)`: `chapters` is the memory
at the pointer, `count` the length given to the slice header.  Go `int` has
64 bits, so `int(n)` of a C `unsigned` is `n`. -/
def processChapters : List CChapter → Nat → Option (List Chapter)
  | _, 0 => some []
  | [], _ + 1 => none
  | c :: rest, count + 1 =>
    match processChapter c, processChapters rest count with
    | some ch, some chs => some (ch :: chs)
    | _, _ => none
end

mutual
/-- The engine's record and all records below it carry counts equal to the
lengths of the arrays they describe. -/
def CChapter.wellFormed : CChapter → Bool
  | CChapter.mk _ _ _ nTracks tracks nDisplay display nChildren children
      nProcess process _ _ _ _ _ =>
    decide (nTracks = tracks.length) && decide (nDisplay = display.length) &&
    decide (nChildren = children.length) && decide (nProcess = process.length) &&
    process.all (fun p => decide (p.nCommands = p.Commands.length)) &&
    CChapter.wellFormedList children
/-- Every record of the forest is well formed. -/
def CChapter.wellFormedList : List CChapter → Bool
  | [] => true
  | c :: rest => CChapter.wellFormed c && CChapter.wellFormedList rest
end

mutual
/-- The number of records in the engine's tree below and including this one. -/
def CChapter.nodes : CChapter → Nat
  | CChapter.mk _ _ _ _ _ _ _ _ children _ _ _ _ _ _ _ => 1 + CChapter.nodesList children
/-- The number of records in the engine's forest. -/
def CChapter.nodesList : List CChapter → Nat
  | [] => 0
  | c :: rest => CChapter.nodes c + CChapter.nodesList rest
end

mutual
/-- The number of chapters in the tree below and including this one. -/
def Chapter.nodes : Chapter → Nat
  | Chapter.mk _ _ _ _ _ children _ _ _ _ _ _ => 1 + Chapter.nodesList children
/-- The number of chapters in the forest. -/
def Chapter.nodesList : List Chapter → Nat
  | [] => 0
  | c :: rest => Chapter.nodes c + Chapter.nodesList rest
end

mutual
/-- The chapter has the shape of the engine's record: as many children as
`nChildren`, the first `nTracks` track numbers in order, as many display
entries as `nDisplay`, as many processes as `nProcess`, each with as many
commands as its `nCommands`; and so on for the children, pairwise. -/
def sameShape : CChapter → Chapter → Prop
  | CChapter.mk _ _ _ nTracks tracks nDisplay _ nChildren children nProcess process _ _ _ _ _,
      d =>
    d.Children.length = nChildren ∧
    d.Tracks = tracks.take nTracks ∧ d.Tracks.length = nTracks ∧
    d.Display.length = nDisplay ∧
    d.Process.length = nProcess ∧
    List.Forall₂ (fun p q => q.Commands.length = p.nCommands) (process.take nProcess)
      d.Process ∧
    sameShapeList children d.Children
/-- Two forests have the same length and the same shape, tree by tree. -/
def sameShapeList : List CChapter → List Chapter → Prop
  | [], [] => True
  | c :: cs, d :: ds => sameShape c d ∧ sameShapeList cs ds
  | [], _ :: _ => False
  | _ :: _, [] => False
end

/-! ## Tags: `types.go` and the engine's records -/

/-- The struct `Target` (its field `Type` is written `Type_`). -/
structure Target where
  UID : Nat
  Type_ : Nat
  deriving DecidableEq, Repr

/-- The struct `SimpleTag`. -/
structure SimpleTag where
  Name : GoString
  Value : GoString
  Language : GoString
  Default : Bool
  deriving DecidableEq, Repr

/-- The struct `Tag`. -/
structure Tag where
  Targets : List Target
  SimpleTags : List SimpleTag
  deriving DecidableEq, Repr

/-- Modelled from the spec: the engine's record `struct Target` of
`MatroskaParser.h`, which is not among the sources. -/
structure CTarget where
  UID : Nat
  Type_ : Nat
  deriving DecidableEq, Repr

/-- Modelled from the spec: the engine's record `struct SimpleTag` of
`MatroskaParser.h`, which is not among the sources. -/
structure CSimpleTag where
  Name : GoString
  Value : GoString
  Language : GoString
  Default : Bool
  deriving DecidableEq, Repr

/-- Modelled from the spec: the engine's record `struct Tag` of
`MatroskaParser.h`, which is not among the sources: the counts `nTargets` and
`nSimpleTags` (C `unsigned`) and the memory at the pointers `Targets` and
`SimpleTags`. -/
structure CTag where
  nTargets : Nat
  Targets : List CTarget
  nSimpleTags : Nat
  SimpleTags : List CSimpleTag
  deriving DecidableEq, Repr

/-- Modelled from the spec: the helper `convertTarget` of `convert.go`, which
is not among the sources. -/
def convertTarget (t : CTarget) : Target :=
  { UID := t.UID, Type_ := t.Type_ }

/-- Modelled from the spec: the helper `convertSimpleTag` of `convert.go`,
which is not among the sources. -/
def convertSimpleTag (t : CSimpleTag) : SimpleTag :=
  { Name := t.Name, Value := t.Value, Language := t.Language, Default := t.Default }

/-- The body of the loop over `tagSlice` in `GetTags`: a new `Tag`, then the
targets and the simple tags, one by one. -/
def processTag (t : CTag) : Option Tag :=
  match sliceLoop (fun x => some (convertTarget x)) t.Targets t.nTargets,
      sliceLoop (fun x => some (convertSimpleTag x)) t.SimpleTags t.nSimpleTags with
  | some targets, some simpleTags => some { Targets := targets, SimpleTags := simpleTags }
  | _, _ => none

/-- The engine's tag array carries counts equal to the lengths of the arrays
they describe. -/
def CTag.wellFormed (t : CTag) : Bool :=
  decide (t.nTargets = t.Targets.length) && decide (t.nSimpleTags = t.SimpleTags.length)

/-! ## The parsing engine (external collaborator) -/

/-- A run of engine code as seen from the Go side: the engine computes on its
own and reaches the host only through the three callbacks installed by
`io_set_callbacks`, each called with the key of the session. -/
inductive EngineProg (α : Type) where
  | done (a : α)
  | read (size : Int) (k : List UInt8 → Int → EngineProg α)
  | seek (cpos : Nat) (k : Int → EngineProg α)
  | getsize (k : Int → EngineProg α)

/-- Running engine code against the world, the callbacks bound to `ckey`. -/
def EngineProg.run {σ α : Type} (rs : ReadSeeker σ) (ckey : String) :
    EngineProg α → World σ → World σ × α
  | EngineProg.done a, w => (w, a)
  | EngineProg.read size k, w =>
    let c := cReadCallback rs w ckey size
    (k c.buf c.ret).run rs ckey c.w
  | EngineProg.seek cpos k, w =>
    let c := cSeekCallback rs w ckey cpos
    (k c.2).run rs ckey c.1
  | EngineProg.getsize k, w =>
    let c := cSizeCallback rs w ckey
    (k c.2).run rs ckey c.1

/-- What `mkv_ReadFrame` hands back: the session afterwards, the text in the
error buffer, the status, and the values stored through the out-pointers
(`frameData` is the memory readable at the returned pointer). -/
structure ReadFrame (μ : Type) where
  m : μ
  errbuf : String
  cret : Int
  track : Nat
  startTime : Nat
  endTime : Nat
  filePos : Nat
  frameSize : Nat
  frameData : List UInt8
  frameFlags : Nat
  discard : Int

/-- The engine entry points used here, over session states `μ`.
`mkv_OpenEx` yields the session (or NULL) and the text left in the error
buffer; `mkv_GetNumTracks` yields a C `unsigned`; `mkv_GetChapters` stores a pointer
(given as the memory behind it) and a count, and so does `mkv_GetTags`;
`mkv_Close` ends the session. -/
structure Engine (μ : Type) where
  mkv_OpenEx : Nat → EngineProg (Option μ × String)
  mkv_GetNumTracks : μ → Nat
  mkv_GetChapters : μ → List CChapter × Nat
  mkv_GetTags : μ → List CTag × Nat
  mkv_ReadFrame : μ → Nat → EngineProg (ReadFrame μ)
  mkv_Close : μ → EngineProg Unit

/-- What the host runtime answers during `newDemuxerWithFlag`: the key made
by `uuid.New()`, and whether `C.calloc` and `C.io_alloc` return non-nil. -/
structure Runtime where
  uuid_New : String
  calloc : Bool
  io_alloc : Bool

/-! ## `types.go` and `matroska.go` -/

/-- The struct `Packet`. -/
structure Packet where
  Track : Nat
  StartTime : Nat
  EndTime : Nat
  FilePos : Nat
  Data : List UInt8
  Flags : Nat
  Discard : Int
  deriving DecidableEq, Repr

/-- The struct `Demuxer`: the engine session, the text in the error buffer,
and the registry key (the C callback struct `io` carries nothing but that
key). -/
structure Demuxer (μ : Type) where
  m : μ
  errbuf : String
  key : String
  deriving DecidableEq

/-- The function `newDemuxerWithFlag`. -/
def newDemuxerWithFlag {σ μ : Type} (rs : ReadSeeker σ) (eng : Engine μ) (rt : Runtime)
    (w : World σ) (r : Ref) (flag : Nat) : World σ × Except GoError (Demuxer μ) :=
  let key := rt.uuid_New
  let w1 := addReader w key r
  if rt.calloc = false then
    (w1, Except.error (GoError.Errorf "could not allocate errbuf"))
  else if rt.io_alloc = false then
    (w1, Except.error (GoError.Errorf "could not allocate io struct"))
  else
    let res := (eng.mkv_OpenEx flag).run rs key w1
    match res.2.1 with
    | none =>
      let reason := res.2.2
      (res.1, Except.error (GoError.Errorf ("couldn't open matroska file: " ++ reason)))
    | some m => (res.1, Except.ok { m := m, errbuf := res.2.2, key := key })

/-- The function `NewDemuxer`. -/
def NewDemuxer {σ μ : Type} (rs : ReadSeeker σ) (eng : Engine μ) (rt : Runtime)
    (w : World σ) (r : Ref) : World σ × Except GoError (Demuxer μ) :=
  newDemuxerWithFlag rs eng rt w r 0

/-- The method `Demuxer.GetNumTracks`; `uint(c)` of a C `unsigned` is `c`. -/
def Demuxer.GetNumTracks {μ : Type} (eng : Engine μ) (d : Demuxer μ) : Nat × Option GoError :=
  let ret := eng.mkv_GetNumTracks d.m
  if ret ≤ 0 then
    let reason := d.errbuf
    (0, some (GoError.Errorf ("couldn't get number of tracks: " ++ reason)))
  else
    (ret, none)

/-- The method `Demuxer.GetChapters`. -/
def Demuxer.GetChapters {μ : Type} (eng : Engine μ) (d : Demuxer μ) : Option (List Chapter) :=
  let res := eng.mkv_GetChapters d.m
  let chapters := res.1
  let count := res.2
  if count = 0 then some []
  else processChapters chapters count

/-- The method `Demuxer.Close`: the world afterwards.  Freeing the callback
struct and the error buffer leaves the world as it is. -/
def Demuxer.Close {σ μ : Type} (rs : ReadSeeker σ) (eng : Engine μ) (w : World σ)
    (d : Demuxer μ) : World σ :=
  let w1 := ((eng.mkv_Close d.m).run rs d.key w).1
  delReader w1 d.key

/-- The method `Demuxer.GetTags`; `none` stands for a read beyond the memory
the engine handed out. -/
def Demuxer.GetTags {μ : Type} (eng : Engine μ) (d : Demuxer μ) : Option (List Tag) :=
  let res := eng.mkv_GetTags d.m
  let tags := res.1
  let count := res.2
  if count = 0 then some []
  else sliceLoop processTag tags count

/-- The cgo helper `C.GoBytes(p, n)`: a fresh copy of the `n` bytes at `p`.
A negative `n` makes the Go runtime panic; reading more than is there is a
fault as well. -/
def GoBytes (p : List UInt8) (n : Int) : Except String (List UInt8) :=
  if n < 0 then Except.error "gobytes: length out of range"
  else if p.length < n.toNat then Except.error "read past the end of the frame"
  else Except.ok (p.take n.toNat)

/-- The method `Demuxer.ReadPacketMask`: the world and the demuxer
afterwards and the Go results `(packet, err)`, or the panic of `C.GoBytes`.
Conversions between integers of equal width are the identity; `uint8(track)`
keeps the low 8 bits and `C.int(frameSize)` reinterprets 32 bits as signed. -/
def Demuxer.ReadPacketMask {σ μ : Type} (rs : ReadSeeker σ) (eng : Engine μ) (w : World σ)
    (d : Demuxer μ) (mask : Nat) :
    World σ × Demuxer μ × Except String (Option Packet × Option GoError) :=
  let res := (eng.mkv_ReadFrame d.m mask).run rs d.key w
  let f := res.2
  let d1 : Demuxer μ := { d with m := f.m, errbuf := f.errbuf }
  if f.cret = -1 then
    (res.1, d1, Except.ok (none, some GoError.EOF))
  else if f.cret ≠ 0 then
    let reason := f.errbuf
    (res.1, d1, Except.ok (none, some (GoError.Errorf ("could not read packet: " ++ reason))))
  else
    match GoBytes f.frameData (toCInt f.frameSize) with
    | Except.error e => (res.1, d1, Except.error e)
    | Except.ok data =>
      (res.1, d1, Except.ok (some
        { Track := f.track % 256, StartTime := f.startTime, EndTime := f.endTime,
          FilePos := f.filePos, Flags := f.frameFlags, Discard := f.discard,
          Data := data }, none))

/-- The method `Demuxer.ReadPacket`. -/
def Demuxer.ReadPacket {σ μ : Type} (rs : ReadSeeker σ) (eng : Engine μ) (w : World σ)
    (d : Demuxer μ) : World σ × Demuxer μ × Except String (Option Packet × Option GoError) :=
  Demuxer.ReadPacketMask rs eng w d 0

/-! ## Engines for concrete runs -/

/-- A leaf record of the engine with UID `uid`, one track and one process of
two commands. -/
def demoLeaf (uid : Nat) : CChapter :=
  CChapter.mk uid 0 10 1 [uid] 0 [] 0 []
    1 [{ CodecID := 1, CodecPrivate := [], nCommands := 2,
         Commands := [{ Time := 0, Command := [1] }, { Time := 1, Command := [2] }] }]
    [] false true false false

/-- An inner record of the engine with UID `uid`, one display entry and the
given two children. -/
def demoInner (uid : Nat) (a b : CChapter) : CChapter :=
  CChapter.mk uid 0 10 0 [] 1 [{ String := "part", Language := "eng", Country := "" }]
    2 [a, b] 0 [] [] false true false false

/-- An engine-reported forest of depth 3 and branching factor 2: two roots,
fourteen records. -/
def demoForest : List CChapter :=
  [demoInner 1 (demoInner 2 (demoLeaf 3) (demoLeaf 4)) (demoInner 5 (demoLeaf 6) (demoLeaf 7)),
   demoInner 8 (demoInner 9 (demoLeaf 10) (demoLeaf 11))
     (demoInner 12 (demoLeaf 13) (demoLeaf 14))]

/-- An engine-reported tag array of two tags: one with a target and two
simple tags, one with neither. -/
def demoTags : List CTag :=
  [{ nTargets := 1, Targets := [{ UID := 7, Type_ := 0 }],
     nSimpleTags := 2,
     SimpleTags := [{ Name := "TITLE", Value := "a", Language := "und", Default := true },
                    { Name := "ARTIST", Value := "b", Language := "und", Default := true }] },
   { nTargets := 0, Targets := [], nSimpleTags := 0, SimpleTags := [] }]

/-- An engine with sessions numbered by `Nat`.  Opening reads four bytes and
fails unless they are `10 11 12 13`.  The number of tracks of a session is its
number; session 0 has no chapters and no tags, the others have `demoForest` and
`demoTags`; closing a session does no I/O.  Reading a frame with mask `0` yields a three-byte frame, with mask
`1` end of stream, with mask `2` a frame of `2 ^ 31` bytes, and with any other
mask a failure. -/
def demoEngine : Engine Nat where
  mkv_OpenEx := fun _ =>
    EngineProg.read 4 (fun buf _ =>
      if buf = [10, 11, 12, 13] then EngineProg.done (some 2, "")
      else EngineProg.done (none, "Invalid EBML header"))
  mkv_GetNumTracks := fun m => m
  mkv_GetChapters := fun m => if m = 0 then ([], 0) else (demoForest, 2)
  mkv_GetTags := fun m => if m = 0 then ([], 0) else (demoTags, 2)
  mkv_Close := fun _ => EngineProg.done ()
  mkv_ReadFrame := fun m mask =>
    if mask = 0 then
      EngineProg.done
        { m := m, errbuf := "", cret := 0, track := 257, startTime := 40, endTime := 80,
          filePos := 1000, frameSize := 3, frameData := [1, 2, 3, 4], frameFlags := 4,
          discard := -1 }
    else if mask = 1 then
      EngineProg.done
        { m := m, errbuf := "", cret := -1, track := 0, startTime := 0, endTime := 0,
          filePos := 0, frameSize := 0, frameData := [], frameFlags := 0, discard := 0 }
    else if mask = 2 then
      EngineProg.done
        { m := m, errbuf := "", cret := 0, track := 1, startTime := 40, endTime := 80,
          filePos := 1000, frameSize := 2 ^ 31, frameData := List.replicate (2 ^ 31) 0,
          frameFlags := 4, discard := 0 }
    else
      EngineProg.done
        { m := m, errbuf := "Unexpected EOF", cret := -2, track := 0, startTime := 0,
          endTime := 0, filePos := 0, frameSize := 0, frameData := [], frameFlags := 0,
          discard := 0 }

/-- A runtime whose allocations succeed and whose fresh key is "k2". -/
def demoRuntime : Runtime where
  uuid_New := "k2"
  calloc := true
  io_alloc := true

/-- A world with an empty registry and one in-memory source, object 0,
that holds the two bytes `0 0`. -/
def freshWorld : World memSource where
  ioTable := fun _ => none
  heap := fun _ => { data := [0, 0], off := 0, sized := true }
  calls := []

/-- An open session of `demoEngine` with `n` tracks. -/
def demoDemuxer (n : Nat) : Demuxer Nat where
  m := n
  errbuf := ""
  key := "k1"

/-- The demonstration engine, except that every read yields a one-byte frame
of track 1. -/
def demoEngineTrack1 : Engine Nat :=
  { demoEngine with
    mkv_ReadFrame := fun m _ =>
      EngineProg.done
        { m := m, errbuf := "", cret := 0, track := 1, startTime := 0, endTime := 1,
          filePos := 0, frameSize := 1, frameData := [9], frameFlags := 0, discard := 0 } }

/-- A world with two sources registered, under the keys "k1" and "k2". -/
def twoSessions : World memSource where
  ioTable := fun k => if k = "k1" then some 0 else if k = "k2" then some 1 else none
  heap := fun _ => { data := [10, 11, 12, 13, 14], off := 0, sized := true }
  calls := []

/-! ## Theorems -/

theorem toCInt_of_range (n : Int) (h0 : -(2 ^ 31) ≤ n) (h1 : n < 2 ^ 31) : toCInt n = n := by
  unfold toCInt
  norm_num at h0 h1 ⊢
  omega

theorem getReader_of_some {σ : Type} (w : World σ) (key : String) (r : Ref)
    (h : w.ioTable key = some r) : getReader w key = Except.ok r := by
  simp [getReader, h]

theorem getReader_of_none {σ : Type} (w : World σ) (key : String)
    (h : w.ioTable key = none) :
    getReader w key = Except.error (GoError.Errorf "invalid reader key") := by
  simp [getReader, h]

/-- C4: for a registered key, when the source's `Read` returns `(n, err)`:
if `err` is nil or `io.EOF` (and `n` obeys the `io.Reader` contract
`0 ≤ n ≤ len(p)`, the length being a `C.int`), `cReadCallback` returns the
non-negative count `n`; in particular end-of-stream with zero bytes yields 0;
for every other error it returns -1. -/
theorem cReadCallback_result {σ : Type} (rs : ReadSeeker σ) (w : World σ) (key : String)
    (r : Ref) (size : Int) (hk : w.ioTable key = some r) :
    ((rs.Read (w.heap r) size).err = none ∨ (rs.Read (w.heap r) size).err = some GoError.EOF →
      0 ≤ (rs.Read (w.heap r) size).n → (rs.Read (w.heap r) size).n ≤ size → size < 2 ^ 31 →
      (cReadCallback rs w key size).ret = (rs.Read (w.heap r) size).n ∧
      0 ≤ (cReadCallback rs w key size).ret) ∧
    ((rs.Read (w.heap r) size).err = some GoError.EOF → (rs.Read (w.heap r) size).n = 0 →
      (cReadCallback rs w key size).ret = 0) ∧
    ((rs.Read (w.heap r) size).err ≠ none ∧ (rs.Read (w.heap r) size).err ≠ some GoError.EOF →
      (cReadCallback rs w key size).ret = -1) := by
  have hg := getReader_of_some w key r hk
  refine ⟨?_, ?_, ?_⟩
  · intro herr h0 h1 h2
    have hc : toCInt (rs.Read (w.heap r) size).n = (rs.Read (w.heap r) size).n :=
      toCInt_of_range _ (by norm_num; omega) (by omega)
    have hcond : ¬ ((rs.Read (w.heap r) size).err ≠ none ∧
        (rs.Read (w.heap r) size).err ≠ some GoError.EOF) := by
      rcases herr with h | h <;> simp [h]
    simp only [cReadCallback, hg, World.Read, if_neg hcond, hc]
    exact ⟨trivial, h0⟩
  · intro herr hn
    have hcond : ¬ ((rs.Read (w.heap r) size).err ≠ none ∧
        (rs.Read (w.heap r) size).err ≠ some GoError.EOF) := by
      simp [herr]
    simp only [cReadCallback, hg, World.Read, if_neg hcond, hn]
    rfl
  · intro herr
    simp only [cReadCallback, hg, World.Read, if_pos herr]

/-- C4, at concrete sources: a five-byte source at offset 2 asked for 8 bytes
yields 3; the same source at its end yields 0; a failing source yields -1. -/
theorem cReadCallback_result_witness :
    (cReadCallback memSource.ops demoWorld "k1" 8).ret = 3 ∧
    (cReadCallback memSource.ops
      { demoWorld with heap := fun _ => { data := [10, 11, 12, 13, 14], off := 5, sized := true } }
      "k1" 8).ret = 0 ∧
    (cReadCallback brokenSource brokenWorld "k1" 8).ret = -1 :=
  ⟨((cReadCallback_result memSource.ops demoWorld "k1" 0 8 (by decide)).1
      (by decide) (by decide) (by decide) (by decide)).1,
   (cReadCallback_result memSource.ops
      { demoWorld with heap := fun _ => { data := [10, 11, 12, 13, 14], off := 5, sized := true } }
      "k1" 0 8 (by decide)).2.1 (by decide) (by decide),
   (cReadCallback_result brokenSource brokenWorld "k1" 0 8 (by decide)).2.2 (by decide)⟩

/-- C5: after `addReader(k, r)` the lookup of `k` returns `r` with no error;
after `delReader(k)` the lookup of `k` returns the "invalid reader key" error;
either way the lookup of any other key `k'` returns what it returned before. -/
theorem registry_add_del_get {σ : Type} (w : World σ) (k k' : String) (r : Ref)
    (h : k' ≠ k) :
    getReader (addReader w k r) k = Except.ok r ∧
    getReader (delReader w k) k = Except.error (GoError.Errorf "invalid reader key") ∧
    getReader (addReader w k r) k' = getReader w k' ∧
    getReader (delReader w k) k' = getReader w k' := by
  simp [getReader, addReader, delReader, h]

/-- C5, at the registry holding "k1": adding and deleting "k2" leaves the
lookup of "k1" as it was. -/
theorem registry_add_del_get_witness :
    "k1" ≠ "k2" ∧
    getReader (addReader demoWorld "k2" 7) "k2" = Except.ok 7 ∧
    getReader (delReader demoWorld "k2") "k2"
      = Except.error (GoError.Errorf "invalid reader key") ∧
    getReader (addReader demoWorld "k2" 7) "k1" = getReader demoWorld "k1" ∧
    getReader (delReader demoWorld "k2") "k1" = getReader demoWorld "k1" :=
  ⟨by decide, registry_add_del_get demoWorld "k2" "k1" 7 (by decide)⟩

/-- C6: for a key that is not in the registry, `cReadCallback`,
`cSeekCallback` and `cSizeCallback` each return -1 and leave the world as it
was: the registry is unchanged, no source state changes, no call is issued on
any source, and nothing is stored into the read buffer. -/
theorem callbacks_unknown_key {σ : Type} (rs : ReadSeeker σ) (w : World σ) (key : String)
    (size : Int) (cpos : Nat) (hk : w.ioTable key = none) :
    (cReadCallback rs w key size).ret = -1 ∧
    (cReadCallback rs w key size).w = w ∧
    (cReadCallback rs w key size).buf = [] ∧
    cSeekCallback rs w key cpos = (w, -1) ∧
    cSizeCallback rs w key = (w, -1) := by
  have hg := getReader_of_none w key hk
  simp [cReadCallback, cSeekCallback, cSizeCallback, hg]

/-- C6, at the key "nope" in a registry that holds only "k1". -/
theorem callbacks_unknown_key_witness :
    demoWorld.ioTable "nope" = none ∧
    (cReadCallback memSource.ops demoWorld "nope" 8).ret = -1 ∧
    (cReadCallback memSource.ops demoWorld "nope" 8).w = demoWorld ∧
    (cReadCallback memSource.ops demoWorld "nope" 8).buf = [] ∧
    cSeekCallback memSource.ops demoWorld "nope" 3 = (demoWorld, -1) ∧
    cSizeCallback memSource.ops demoWorld "nope" = (demoWorld, -1) :=
  ⟨by decide, callbacks_unknown_key memSource.ops demoWorld "nope" 8 3 (by decide)⟩

theorem memSource_contract :
    SeekerContract memSource.ops (fun m => (m.data, m.sized)) (fun m => (m.off : Int)) := by
  constructor
  · intro s o wh h
    simp only [memSource.ops, memSource.Seek] at h ⊢
    split_ifs at h ⊢ <;> simp_all
  · intro s o h
    simp only [memSource.ops, memSource.Seek] at h ⊢
    split_ifs at h ⊢ <;> simp_all
  · intro s o h
    simp only [memSource.ops, memSource.Seek, SeekStart, SeekCurrent] at h ⊢
    split_ifs at h ⊢ <;> simp_all
  · intro s o wh h
    simp only [memSource.ops, memSource.Seek] at h ⊢
    split_ifs at h ⊢ <;> simp_all
  · intro s t len hc ho
    obtain ⟨sd, s_off, ss⟩ := s
    obtain ⟨td, t_off, ts⟩ := t
    simp only [Prod.mk.injEq, Nat.cast_inj] at hc ho
    obtain ⟨rfl, rfl⟩ := hc
    subst ho
    simp [memSource.ops, memSource.Read]

/-- C1: for a registered key whose source keeps the `io.ReadSeeker` contract
and on which the three `Seek` calls succeed, `cSizeCallback` returns the
offset reported by the seek to the end, leaves the source at the read offset
it had before the call, and a `cReadCallback` issued afterwards returns the
same count and the same bytes as it would have without the size call. -/
theorem cSizeCallback_preserves_position {σ κ : Type} (rs : ReadSeeker σ)
    (content : σ → κ) (offset : σ → Int) (hc : SeekerContract rs content offset)
    (w : World σ) (key : String) (r : Ref) (s1 s2 s3 : σ) (pos endPos back : Int)
    (hk : w.ioTable key = some r)
    (h1 : rs.Seek (w.heap r) 0 SeekCurrent = { s := s1, off := pos, err := none })
    (h2 : rs.Seek s1 0 SeekEnd = { s := s2, off := endPos, err := none })
    (h3 : rs.Seek s2 pos SeekStart = { s := s3, off := back, err := none }) :
    (cSizeCallback rs w key).2 = endPos ∧
    offset ((cSizeCallback rs w key).1.heap r) = offset (w.heap r) ∧
    (cSizeCallback rs w key).1.ioTable = w.ioTable ∧
    ∀ size, (cReadCallback rs (cSizeCallback rs w key).1 key size).ret
        = (cReadCallback rs w key size).ret ∧
      (cReadCallback rs (cSizeCallback rs w key).1 key size).buf
        = (cReadCallback rs w key size).buf := by
  have hg := getReader_of_some w key r hk
  have hsz : cSizeCallback rs w key =
      ({ ioTable := w.ioTable, heap := Function.update w.heap r s3,
         calls := w.calls ++ [(r, Call.Seek 0 SeekCurrent)] ++ [(r, Call.Seek 0 SeekEnd)]
            ++ [(r, Call.Seek pos SeekStart)] }, endPos) := by
    simp [cSizeCallback, hg, World.Seek, h1, h2, h3]
  have e1 := congrArg SeekRet.err h1
  have e2 := congrArg SeekRet.err h2
  have e3 := congrArg SeekRet.err h3
  have hpos : pos = offset (w.heap r) := by
    have := hc.seek_current (w.heap r) 0 e1
    rw [h1] at this
    simpa using this
  have hoff : offset s3 = offset (w.heap r) := by
    have a := hc.seek_reports s2 pos SeekStart e3
    have b := hc.seek_start s2 pos e3
    rw [h3] at a b
    simp only at a b
    rw [← a, b, hpos]
  have hcont : content s3 = content (w.heap r) := by
    have a := hc.seek_content (w.heap r) 0 SeekCurrent e1
    have b := hc.seek_content s1 0 SeekEnd e2
    have c := hc.seek_content s2 pos SeekStart e3
    rw [h1] at a
    rw [h2] at b
    rw [h3] at c
    simp only at a b c
    rw [c, b, a]
  have hg3 : getReader (cSizeCallback rs w key).1 key = Except.ok r := by
    rw [hsz]
    exact getReader_of_some _ key r hk
  refine ⟨by rw [hsz], by rw [hsz]; simpa using hoff, by rw [hsz], ?_⟩
  intro size
  obtain ⟨hp, hn, he⟩ := hc.read_determined s3 (w.heap r) size hcont hoff
  have hh : (cSizeCallback rs w key).1.heap r = s3 := by
    rw [hsz]
    simp
  simp only [cReadCallback, hg, hg3, World.Read, hh, hp, hn, he]
  split_ifs <;> exact ⟨rfl, rfl⟩

/-- C1, at the five-byte in-memory source at offset 2: the size is 5, the
offset is 2 again afterwards, and a following read of up to 8 bytes delivers
the same three bytes. -/
theorem cSizeCallback_preserves_position_witness :
    (cSizeCallback memSource.ops demoWorld "k1").2 = 5 ∧
    (((cSizeCallback memSource.ops demoWorld "k1").1.heap 0).off : Int)
      = ((demoWorld.heap 0).off : Int) ∧
    (cSizeCallback memSource.ops demoWorld "k1").1.ioTable = demoWorld.ioTable ∧
    ∀ size, (cReadCallback memSource.ops (cSizeCallback memSource.ops demoWorld "k1").1
          "k1" size).ret = (cReadCallback memSource.ops demoWorld "k1" size).ret ∧
      (cReadCallback memSource.ops (cSizeCallback memSource.ops demoWorld "k1").1
          "k1" size).buf = (cReadCallback memSource.ops demoWorld "k1" size).buf :=
  cSizeCallback_preserves_position memSource.ops (fun m => (m.data, m.sized))
    (fun m => (m.off : Int)) memSource_contract demoWorld "k1" 0
    { data := [10, 11, 12, 13, 14], off := 2, sized := true }
    { data := [10, 11, 12, 13, 14], off := 5, sized := true }
    { data := [10, 11, 12, 13, 14], off := 2, sized := true }
    2 5 2 (by decide) rfl rfl rfl

/-- C3 as stated fails: on the in-memory source whose length cannot be
measured, the position query succeeds with offset 2, the seek to the end
fails, and `cSizeCallback` returns -1 having issued exactly those two calls:
no seek back to offset 2 from the start is issued. -/
theorem cSizeCallback_restore_counterexample :
    unsizedWorld.ioTable "k1" = some 0 ∧
    (memSource.ops.Seek (unsizedWorld.heap 0) 0 SeekCurrent).err = none ∧
    (memSource.ops.Seek (unsizedWorld.heap 0) 0 SeekCurrent).off = 2 ∧
    (memSource.ops.Seek (memSource.ops.Seek (unsizedWorld.heap 0) 0 SeekCurrent).s
      0 SeekEnd).err ≠ none ∧
    (cSizeCallback memSource.ops unsizedWorld "k1").2 = -1 ∧
    (cSizeCallback memSource.ops unsizedWorld "k1").1.calls
      = [(0, Call.Seek 0 SeekCurrent), (0, Call.Seek 0 SeekEnd)] ∧
    (0, Call.Seek 2 SeekStart) ∉ (cSizeCallback memSource.ops unsizedWorld "k1").1.calls := by
  decide

/-- C3, amended: for a registered source, when the position query succeeds
and the seek to the end fails, `cSizeCallback` returns -1 at once: the calls
it issues on the source are the position query and the failed seek to the
end and nothing else, and the source is left in the state the failed seek
left it in. -/
theorem cSizeCallback_end_failure {σ : Type} (rs : ReadSeeker σ) (w : World σ)
    (key : String) (r : Ref) (s1 : σ) (pos : Int)
    (hk : w.ioTable key = some r)
    (h1 : rs.Seek (w.heap r) 0 SeekCurrent = { s := s1, off := pos, err := none })
    (h2 : (rs.Seek s1 0 SeekEnd).err ≠ none) :
    (cSizeCallback rs w key).2 = -1 ∧
    (cSizeCallback rs w key).1.calls
      = w.calls ++ [(r, Call.Seek 0 SeekCurrent), (r, Call.Seek 0 SeekEnd)] ∧
    (cSizeCallback rs w key).1.heap r = (rs.Seek s1 0 SeekEnd).s ∧
    (cSizeCallback rs w key).1.ioTable = w.ioTable := by
  have hg := getReader_of_some w key r hk
  simp [cSizeCallback, hg, World.Seek, h1, h2]

/-- C3 amended, at the in-memory source whose length cannot be measured. -/
theorem cSizeCallback_end_failure_witness :
    (cSizeCallback memSource.ops unsizedWorld "k1").2 = -1 ∧
    (cSizeCallback memSource.ops unsizedWorld "k1").1.calls
      = [] ++ [(0, Call.Seek 0 SeekCurrent), (0, Call.Seek 0 SeekEnd)] ∧
    (cSizeCallback memSource.ops unsizedWorld "k1").1.heap 0
      = { data := [10, 11, 12, 13, 14], off := 2, sized := false } ∧
    (cSizeCallback memSource.ops unsizedWorld "k1").1.ioTable = unsizedWorld.ioTable :=
  cSizeCallback_end_failure memSource.ops unsizedWorld "k1" 0
    { data := [10, 11, 12, 13, 14], off := 2, sized := false } 2 (by decide) rfl (by decide)

/-- C9: `fakeSeeker.Seek` returns an error for every offset and whence and
leaves the wrapped reader as it is; hence for a key registered to a
`fakeSeeker`, `cSeekCallback` returns -1 for every position and
`cSizeCallback` returns -1; and `fakeSeeker.Read` returns exactly what the
wrapped reader's `Read` returns. -/
theorem fakeSeeker_never_seeks {ρ σ : Type} (rd : Reader ρ) (rs : ReadSeeker σ)
    (w : World (fakeSeeker ρ ⊕ σ)) (key : String) (r : Ref) (f : fakeSeeker ρ)
    (hk : w.ioTable key = some r) (hf : w.heap r = Sum.inl f) :
    (∀ offset whence, (fakeSeeker.Seek f offset whence).err ≠ none ∧
      (fakeSeeker.Seek f offset whence).s = f) ∧
    (∀ cpos, (cSeekCallback (dispatch rd rs) w key cpos).2 = -1) ∧
    (cSizeCallback (dispatch rd rs) w key).2 = -1 ∧
    (∀ p, (fakeSeeker.Read rd f p).n = (rd.Read f.r p).n ∧
      (fakeSeeker.Read rd f p).err = (rd.Read f.r p).err ∧
      (fakeSeeker.Read rd f p).p = (rd.Read f.r p).p ∧
      (fakeSeeker.Read rd f p).s.r = (rd.Read f.r p).s) := by
  have hg := getReader_of_some w key r hk
  refine ⟨fun _ _ => ⟨by simp [fakeSeeker.Seek], rfl⟩, ?_, ?_, fun _ => ⟨rfl, rfl, rfl, rfl⟩⟩
  · intro cpos
    simp [cSeekCallback, hg, World.Seek, hf, dispatch, fakeSeeker.Seek]
  · simp [cSizeCallback, hg, World.Seek, hf, dispatch, fakeSeeker.Seek]

/-- C9, at a `fakeSeeker` around a reader that always delivers one byte. -/
theorem fakeSeeker_never_seeks_witness :
    (∀ offset whence, (fakeSeeker.Seek (⟨()⟩ : fakeSeeker Unit) offset whence).err ≠ none ∧
      (fakeSeeker.Seek (⟨()⟩ : fakeSeeker Unit) offset whence).s = ⟨()⟩) ∧
    (∀ cpos, (cSeekCallback (dispatch sevens memSource.ops) streamWorld "k1" cpos).2 = -1) ∧
    (cSizeCallback (dispatch sevens memSource.ops) streamWorld "k1").2 = -1 ∧
    (∀ p, (fakeSeeker.Read sevens ⟨()⟩ p).n = (sevens.Read () p).n ∧
      (fakeSeeker.Read sevens ⟨()⟩ p).err = (sevens.Read () p).err ∧
      (fakeSeeker.Read sevens ⟨()⟩ p).p = (sevens.Read () p).p ∧
      (fakeSeeker.Read sevens ⟨()⟩ p).s.r = (sevens.Read () p).s) :=
  fakeSeeker_never_seeks sevens memSource.ops streamWorld "k1" 0 ⟨()⟩ (by decide) rfl

theorem cReadCallback_ioTable {σ : Type} (rs : ReadSeeker σ) (w : World σ) (key : String)
    (size : Int) : (cReadCallback rs w key size).w.ioTable = w.ioTable := by
  unfold cReadCallback
  cases getReader w key with
  | error e => rfl
  | ok r =>
    simp only [World.Read]
    split_ifs <;> rfl

theorem cSeekCallback_ioTable {σ : Type} (rs : ReadSeeker σ) (w : World σ) (key : String)
    (cpos : Nat) : (cSeekCallback rs w key cpos).1.ioTable = w.ioTable := by
  unfold cSeekCallback
  cases getReader w key with
  | error e => rfl
  | ok r =>
    simp only [World.Seek]
    split_ifs <;> rfl

theorem cSizeCallback_ioTable {σ : Type} (rs : ReadSeeker σ) (w : World σ) (key : String) :
    (cSizeCallback rs w key).1.ioTable = w.ioTable := by
  unfold cSizeCallback
  cases getReader w key with
  | error e => rfl
  | ok r =>
    simp only [World.Seek]
    split_ifs <;> rfl

theorem run_ioTable {σ α : Type} (rs : ReadSeeker σ) (key : String) (e : EngineProg α) :
    ∀ w : World σ, (e.run rs key w).1.ioTable = w.ioTable := by
  induction e with
  | done a => intro w; rfl
  | read size k ih =>
    intro w
    simp only [EngineProg.run]
    rw [ih, cReadCallback_ioTable]
  | seek cpos k ih =>
    intro w
    simp only [EngineProg.run]
    rw [ih, cSeekCallback_ioTable]
  | getsize k ih =>
    intro w
    simp only [EngineProg.run]
    rw [ih, cSizeCallback_ioTable]

/-- Whatever the source, the flag, the engine and the allocations do, the
registry after `newDemuxerWithFlag` is the registry before it with the fresh
key added: no path, failing or not, takes the key out again. -/
theorem newDemuxerWithFlag_ioTable {σ μ : Type} (rs : ReadSeeker σ) (eng : Engine μ)
    (rt : Runtime) (w : World σ) (r : Ref) (flag : Nat) :
    (newDemuxerWithFlag rs eng rt w r flag).1.ioTable
      = (addReader w rt.uuid_New r).ioTable := by
  unfold newDemuxerWithFlag
  simp only []
  split_ifs
  · rfl
  · rfl
  · split <;> exact run_ioTable rs _ _ _

/-- On every failing path of `newDemuxerWithFlag` the key is still
registered afterwards. -/
theorem newDemuxerWithFlag_error_keeps_key {σ μ : Type} (rs : ReadSeeker σ) (eng : Engine μ)
    (rt : Runtime) (w : World σ) (r : Ref) (flag : Nat) :
    getReader (newDemuxerWithFlag rs eng rt w r flag).1 rt.uuid_New = Except.ok r := by
  apply getReader_of_some
  rw [newDemuxerWithFlag_ioTable]
  simp [addReader]

/-- C2 fails on the code: opening a source that is not a Matroska file (the
engine reads four bytes and rejects them) returns an error, and the key "k2",
absent from the registry before the call, is still registered to the source
afterwards; the same holds when the error buffer or the callback struct
cannot be allocated. -/
theorem newDemuxerWithFlag_leaks_key :
    getReader freshWorld "k2" = Except.error (GoError.Errorf "invalid reader key") ∧
    (newDemuxerWithFlag memSource.ops demoEngine demoRuntime freshWorld 0 0).2
      = Except.error (GoError.Errorf "couldn't open matroska file: Invalid EBML header") ∧
    getReader (newDemuxerWithFlag memSource.ops demoEngine demoRuntime freshWorld 0 0).1 "k2"
      = Except.ok 0 ∧
    (newDemuxerWithFlag memSource.ops demoEngine demoRuntime freshWorld 0 0).1.ioTable
      ≠ freshWorld.ioTable ∧
    (newDemuxerWithFlag memSource.ops demoEngine { demoRuntime with calloc := false }
      freshWorld 0 0).2 = Except.error (GoError.Errorf "could not allocate errbuf") ∧
    getReader (newDemuxerWithFlag memSource.ops demoEngine { demoRuntime with calloc := false }
      freshWorld 0 0).1 "k2" = Except.ok 0 ∧
    (newDemuxerWithFlag memSource.ops demoEngine { demoRuntime with io_alloc := false }
      freshWorld 0 0).2 = Except.error (GoError.Errorf "could not allocate io struct") ∧
    getReader (newDemuxerWithFlag memSource.ops demoEngine { demoRuntime with io_alloc := false }
      freshWorld 0 0).1 "k2" = Except.ok 0 := by
  refine ⟨rfl, rfl, rfl, ?_, rfl, rfl, rfl, rfl⟩
  intro h
  have h2 := congrFun h "k2"
  revert h2
  decide

/-- C10: `GetNumTracks` returns an error together with the count 0 when the
count `c` reported by the engine (a C `unsigned`) is zero or less, and
returns `c` with no error otherwise. -/
theorem GetNumTracks_result {μ : Type} (eng : Engine μ) (d : Demuxer μ) :
    (eng.mkv_GetNumTracks d.m ≤ 0 →
      (Demuxer.GetNumTracks eng d).1 = 0 ∧ (Demuxer.GetNumTracks eng d).2 ≠ none) ∧
    (0 < eng.mkv_GetNumTracks d.m →
      Demuxer.GetNumTracks eng d = (eng.mkv_GetNumTracks d.m, none)) := by
  constructor
  · intro h
    simp [Demuxer.GetNumTracks, h]
  · intro h
    have h' : ¬ eng.mkv_GetNumTracks d.m ≤ 0 := by omega
    simp only [Demuxer.GetNumTracks, if_neg h']

/-- C10, at sessions with zero and with two tracks. -/
theorem GetNumTracks_result_witness :
    ((Demuxer.GetNumTracks demoEngine (demoDemuxer 0)).1 = 0 ∧
      (Demuxer.GetNumTracks demoEngine (demoDemuxer 0)).2 ≠ none) ∧
    Demuxer.GetNumTracks demoEngine (demoDemuxer 2) = (2, none) :=
  ⟨(GetNumTracks_result demoEngine (demoDemuxer 0)).1 (by decide),
   (GetNumTracks_result demoEngine (demoDemuxer 2)).2 (by decide)⟩

/-- C7 as stated fails for large frames: when the engine reports status 0 and
a frame of `2 ^ 31` bytes (all of them readable), `C.int(frameSize)` is
negative and `C.GoBytes` panics, so no packet with `frameSize` bytes of data
is returned. -/
theorem ReadPacketMask_large_frame_counterexample :
    ((demoEngine.mkv_ReadFrame (demoDemuxer 2).m 2).run memSource.ops "k1" demoWorld).2.cret = 0 ∧
    ((demoEngine.mkv_ReadFrame (demoDemuxer 2).m 2).run memSource.ops "k1" demoWorld).2.frameSize
      = 2 ^ 31 ∧
    ((demoEngine.mkv_ReadFrame (demoDemuxer 2).m 2).run memSource.ops "k1"
      demoWorld).2.frameData.length = 2 ^ 31 ∧
    toCInt ((2 ^ 31 : Nat) : Int) = -(2 ^ 31) ∧
    (Demuxer.ReadPacketMask memSource.ops demoEngine demoWorld (demoDemuxer 2) 2).2.2
      = Except.error "gobytes: length out of range" := by
  refine ⟨rfl, rfl, ?_, by decide, rfl⟩
  show (List.replicate (2 ^ 31) (0 : UInt8)).length = 2 ^ 31
  exact List.length_replicate _ _

/-- C7, amended: for every mask, with `f` what the engine's read-frame call
hands back: status -1 yields no packet and `io.EOF`; any other non-zero
status yields no packet and an error, distinct from `io.EOF`, whose text ends
with the engine's diagnostic buffer; status 0 with a frame size below `2 ^ 31`
(and that many bytes readable) yields no error and a packet whose StartTime,
EndTime, FilePos, Flags and Discard are the engine-reported values and whose
Data is a copy of exactly `frameSize` bytes. -/
theorem ReadPacketMask_outcomes {σ μ : Type} (rs : ReadSeeker σ) (eng : Engine μ)
    (w : World σ) (d : Demuxer μ) (mask : Nat) :
    (((eng.mkv_ReadFrame d.m mask).run rs d.key w).2.cret = -1 →
      (Demuxer.ReadPacketMask rs eng w d mask).2.2 = Except.ok (none, some GoError.EOF)) ∧
    (((eng.mkv_ReadFrame d.m mask).run rs d.key w).2.cret ≠ -1 →
      ((eng.mkv_ReadFrame d.m mask).run rs d.key w).2.cret ≠ 0 →
      (Demuxer.ReadPacketMask rs eng w d mask).2.2
        = Except.ok (none, some (GoError.Errorf ("could not read packet: " ++
            ((eng.mkv_ReadFrame d.m mask).run rs d.key w).2.errbuf))) ∧
      GoError.Errorf ("could not read packet: " ++
            ((eng.mkv_ReadFrame d.m mask).run rs d.key w).2.errbuf) ≠ GoError.EOF) ∧
    (((eng.mkv_ReadFrame d.m mask).run rs d.key w).2.cret = 0 →
      ((eng.mkv_ReadFrame d.m mask).run rs d.key w).2.frameSize < 2 ^ 31 →
      ((eng.mkv_ReadFrame d.m mask).run rs d.key w).2.frameSize
        ≤ ((eng.mkv_ReadFrame d.m mask).run rs d.key w).2.frameData.length →
      ∃ pkt : Packet,
        (Demuxer.ReadPacketMask rs eng w d mask).2.2 = Except.ok (some pkt, none) ∧
        pkt.StartTime = ((eng.mkv_ReadFrame d.m mask).run rs d.key w).2.startTime ∧
        pkt.EndTime = ((eng.mkv_ReadFrame d.m mask).run rs d.key w).2.endTime ∧
        pkt.FilePos = ((eng.mkv_ReadFrame d.m mask).run rs d.key w).2.filePos ∧
        pkt.Flags = ((eng.mkv_ReadFrame d.m mask).run rs d.key w).2.frameFlags ∧
        pkt.Discard = ((eng.mkv_ReadFrame d.m mask).run rs d.key w).2.discard ∧
        pkt.Data = ((eng.mkv_ReadFrame d.m mask).run rs d.key w).2.frameData.take
          ((eng.mkv_ReadFrame d.m mask).run rs d.key w).2.frameSize ∧
        pkt.Data.length = ((eng.mkv_ReadFrame d.m mask).run rs d.key w).2.frameSize) := by
  generalize hf : ((eng.mkv_ReadFrame d.m mask).run rs d.key w) = res
  refine ⟨?_, ?_, ?_⟩
  · intro h
    simp only [Demuxer.ReadPacketMask, hf, if_pos h]
  · intro h1 h0
    refine ⟨?_, by simp⟩
    simp only [Demuxer.ReadPacketMask, hf, if_neg h1, if_pos h0]
  · intro h0 hs hl
    have h1 : res.2.cret ≠ -1 := by rw [h0]; decide
    have hc : toCInt (res.2.frameSize : Int) = (res.2.frameSize : Int) :=
      toCInt_of_range _ (by norm_num; omega) (by exact_mod_cast hs)
    have hg : GoBytes res.2.frameData (toCInt (res.2.frameSize : Int))
        = Except.ok (res.2.frameData.take res.2.frameSize) := by
      rw [hc]
      simp only [GoBytes, Int.toNat_ofNat]
      rw [if_neg (by omega), if_neg (by omega)]
    refine ⟨{ Track := res.2.track % 256, StartTime := res.2.startTime,
              EndTime := res.2.endTime, FilePos := res.2.filePos,
              Flags := res.2.frameFlags, Discard := res.2.discard,
              Data := res.2.frameData.take res.2.frameSize },
            ?_, rfl, rfl, rfl, rfl, rfl, rfl, ?_⟩
    · simp only [Demuxer.ReadPacketMask, hf, if_neg h1, h0, hg]
      rfl
    · simp only [List.length_take]
      omega

/-- C7 amended, at the three kinds of answer of the demonstration engine:
mask 1 gives end of stream, mask 3 a failure with the diagnostic text, mask 0
a three-byte packet. -/
theorem ReadPacketMask_outcomes_witness :
    (Demuxer.ReadPacketMask memSource.ops demoEngine demoWorld (demoDemuxer 2) 1).2.2
      = Except.ok (none, some GoError.EOF) ∧
    (Demuxer.ReadPacketMask memSource.ops demoEngine demoWorld (demoDemuxer 2) 3).2.2
      = Except.ok (none, some (GoError.Errorf "could not read packet: Unexpected EOF")) ∧
    (∃ pkt : Packet,
      (Demuxer.ReadPacketMask memSource.ops demoEngine demoWorld (demoDemuxer 2) 0).2.2
        = Except.ok (some pkt, none) ∧
      pkt.StartTime = 40 ∧ pkt.EndTime = 80 ∧ pkt.FilePos = 1000 ∧ pkt.Flags = 4 ∧
      pkt.Discard = -1 ∧ pkt.Data = [1, 2, 3] ∧ pkt.Data.length = 3) :=
  ⟨(ReadPacketMask_outcomes memSource.ops demoEngine demoWorld (demoDemuxer 2) 1).1 rfl,
   ((ReadPacketMask_outcomes memSource.ops demoEngine demoWorld (demoDemuxer 2) 3).2.1
      (by decide) (by decide)).1,
   (ReadPacketMask_outcomes memSource.ops demoEngine demoWorld (demoDemuxer 2) 0).2.2
      rfl (by decide) (by decide)⟩

theorem sliceLoop_length {α β : Type} (body : α → Option β) (f : α → β) :
    ∀ l : List α, (∀ a ∈ l, body a = some (f a)) →
      sliceLoop body l l.length = some (l.map f)
  | [], _ => rfl
  | a :: rest, h => by
    have ha := h a (List.mem_cons_self a rest)
    have hr := sliceLoop_length body f rest (fun x hx => h x (List.mem_cons_of_mem a hx))
    simp only [List.length_cons, sliceLoop, ha, hr, List.map_cons]

theorem processChapterProcess_ok (p : CChapterProcess) (h : p.nCommands = p.Commands.length) :
    processChapterProcess p
      = some { CodecID := p.CodecID, CodecPrivate := p.CodecPrivate,
               Commands := p.Commands.map convertChapterCommand } := by
  have hl := sliceLoop_length (fun c => some (convertChapterCommand c)) convertChapterCommand
    p.Commands (fun _ _ => rfl)
  simp only [processChapterProcess, h, hl, convertPartialChapterProcess]

theorem forall₂_commands (ps : List CChapterProcess)
    (h : ∀ p ∈ ps, p.nCommands = p.Commands.length) :
    List.Forall₂ (fun (p : CChapterProcess) (q : ChapterProcess) =>
        q.Commands.length = p.nCommands) ps
      (ps.map (fun p => (⟨p.CodecID, p.CodecPrivate,
               p.Commands.map convertChapterCommand⟩ : ChapterProcess))) := by
  induction ps with
  | nil => exact List.Forall₂.nil
  | cons p rest ih =>
    refine List.Forall₂.cons ?_ (ih (fun x hx => h x (List.mem_cons_of_mem p hx)))
    simp [h p (List.mem_cons_self p rest)]

mutual
theorem processChapter_ok : ∀ c : CChapter, CChapter.wellFormed c = true →
    ∃ d, processChapter c = some d ∧ Chapter.nodes d = CChapter.nodes c ∧ sameShape c d
  | CChapter.mk uid start end_ nTracks tracks nDisplay display nChildren children
      nProcess process segmentUID hidden enabled default_ ordered, h => by
    simp only [CChapter.wellFormed, Bool.and_eq_true, decide_eq_true_eq, List.all_eq_true] at h
    obtain ⟨⟨⟨⟨⟨ht, hd⟩, hc⟩, hp⟩, hcmd⟩, hkids⟩ := h
    obtain ⟨ks, hks, hklen, hknodes, hkshape⟩ := processChapters_ok children hkids
    have e1 := sliceLoop_length (fun t : Nat => some t) id tracks (fun _ _ => rfl)
    have e2 := sliceLoop_length (fun d => some (convertChapterDisplay d)) convertChapterDisplay
      display (fun _ _ => rfl)
    have e3 := sliceLoop_length processChapterProcess
      (fun p => (⟨p.CodecID, p.CodecPrivate,
               p.Commands.map convertChapterCommand⟩ : ChapterProcess))
      process (fun p hp' => processChapterProcess_ok p (hcmd p hp'))
    have hkids' : (if nChildren > 0 then processChapters children nChildren
        else some (convertPartialChapter
          (CChapter.mk uid start end_ nTracks tracks nDisplay display nChildren children
            nProcess process segmentUID hidden enabled default_ ordered)).Children)
        = some ks := by
      by_cases h0 : nChildren > 0
      · rw [if_pos h0, hc, hks]
      · rw [if_neg h0]
        have hz : children.length = 0 := by omega
        have hnil : children = [] := List.length_eq_zero.mp hz
        subst hnil
        simp only [List.length_nil] at hks
        simp only [processChapters] at hks
        rw [← Option.some.inj hks]
        rfl
    refine ⟨Chapter.mk uid start end_ (tracks.map id) (display.map convertChapterDisplay) ks
      (process.map (fun p => (⟨p.CodecID, p.CodecPrivate,
               p.Commands.map convertChapterCommand⟩ : ChapterProcess)))
      segmentUID hidden enabled default_ ordered, ?_, ?_, ?_⟩
    · simp only [processChapter, hkids']
      rw [ht, hd, hp, e1, e2, e3]
    · simp only [Chapter.nodes, CChapter.nodes, hknodes]
    · simp only [sameShape, Chapter.Children, Chapter.Tracks, Chapter.Display, Chapter.Process,
        List.map_id, List.length_map]
      refine ⟨by omega, ?_, ht.symm, hd.symm, hp.symm, ?_, hkshape⟩
      · rw [ht, List.take_length]
      · rw [hp, List.take_length]
        exact forall₂_commands process (fun p hp' => hcmd p hp')
theorem processChapters_ok : ∀ cs : List CChapter, CChapter.wellFormedList cs = true →
    ∃ ds, processChapters cs cs.length = some ds ∧ ds.length = cs.length ∧
      Chapter.nodesList ds = CChapter.nodesList cs ∧ sameShapeList cs ds
  | [], _ => ⟨[], rfl, rfl, rfl, trivial⟩
  | c :: rest, h => by
    simp only [CChapter.wellFormedList, Bool.and_eq_true] at h
    obtain ⟨d, hd, hdn, hds⟩ := processChapter_ok c h.1
    obtain ⟨ds, hds1, hdl, hdsn, hdss⟩ := processChapters_ok rest h.2
    refine ⟨d :: ds, ?_, ?_, ?_, ?_⟩
    · simp only [List.length_cons, processChapters, hd, hds1]
    · simp only [List.length_cons, hdl]
    · simp only [Chapter.nodesList, CChapter.nodesList, hdn, hdsn]
    · simp only [sameShapeList]
      exact ⟨hds, hdss⟩
end

/-- C8: for every engine-reported chapter forest whose counts equal the
lengths of the arrays they describe, of any depth, `processChapters` returns
a forest (it terminates and reads no memory out of bounds) with as many roots
as the source, exactly as many chapters in total, and the same shape: each
chapter has `nChildren` children, the source's track numbers in order
(`nTracks` of them), `nDisplay` display entries, `nProcess` processes, and
each process `nCommands` commands; `GetChapters` returns that forest. -/
theorem processChapters_same_shape {μ : Type} (cs : List CChapter)
    (h : CChapter.wellFormedList cs = true) :
    ∃ out, processChapters cs cs.length = some out ∧ out.length = cs.length ∧
      Chapter.nodesList out = CChapter.nodesList cs ∧ sameShapeList cs out ∧
      ∀ (eng : Engine μ) (d : Demuxer μ), eng.mkv_GetChapters d.m = (cs, cs.length) →
        Demuxer.GetChapters eng d = some out := by
  obtain ⟨out, h1, h2, h3, h4⟩ := processChapters_ok cs h
  refine ⟨out, h1, h2, h3, h4, ?_⟩
  intro eng d he
  simp only [Demuxer.GetChapters, he]
  split_ifs with h0
  · have hnil : cs = [] := List.length_eq_zero.mp h0
    subst hnil
    simp only [List.length_nil, processChapters] at h1
    exact h1
  · exact h1

/-- C8, at a forest of depth 3 and branching factor 2 with fourteen records. -/
theorem processChapters_same_shape_witness :
    CChapter.nodesList demoForest = 14 ∧
    ∃ out, processChapters demoForest demoForest.length = some out ∧
      out.length = demoForest.length ∧
      Chapter.nodesList out = CChapter.nodesList demoForest ∧ sameShapeList demoForest out ∧
      ∀ (eng : Engine Nat) (d : Demuxer Nat),
        eng.mkv_GetChapters d.m = (demoForest, demoForest.length) →
        Demuxer.GetChapters eng d = some out :=
  ⟨by decide, processChapters_same_shape demoForest (by decide)⟩

/-- C11: after `d.Close()` the lookup of `d`'s key reports "invalid reader
key", and the registry entry of every other key `k` (the entries of other
open sessions) is what it was, whatever the engine does while closing. -/
theorem Close_unregisters_key {σ μ : Type} (rs : ReadSeeker σ) (eng : Engine μ)
    (w : World σ) (d : Demuxer μ) (k : String) (hk : k ≠ d.key) :
    getReader (Demuxer.Close rs eng w d) d.key
      = Except.error (GoError.Errorf "invalid reader key") ∧
    (Demuxer.Close rs eng w d).ioTable d.key = none ∧
    (Demuxer.Close rs eng w d).ioTable k = w.ioTable k ∧
    getReader (Demuxer.Close rs eng w d) k = getReader w k := by
  have hrun := run_ioTable rs d.key (eng.mkv_Close d.m) w
  have h1 : (Demuxer.Close rs eng w d).ioTable d.key = none := by
    simp [Demuxer.Close, delReader]
  have h2 : (Demuxer.Close rs eng w d).ioTable k = w.ioTable k := by
    simp only [Demuxer.Close, delReader, if_neg hk, hrun]
  refine ⟨?_, h1, h2, ?_⟩
  · simp only [getReader, h1]
  · simp only [getReader, h2]

/-- C11, at two open sessions "k1" and "k2": closing the first leaves the
second registered to its source. -/
theorem Close_unregisters_key_witness :
    "k2" ≠ (demoDemuxer 2).key ∧
    getReader (Demuxer.Close memSource.ops demoEngine twoSessions (demoDemuxer 2)) "k1"
      = Except.error (GoError.Errorf "invalid reader key") ∧
    (Demuxer.Close memSource.ops demoEngine twoSessions (demoDemuxer 2)).ioTable "k1" = none ∧
    (Demuxer.Close memSource.ops demoEngine twoSessions (demoDemuxer 2)).ioTable "k2"
      = some 1 ∧
    getReader (Demuxer.Close memSource.ops demoEngine twoSessions (demoDemuxer 2)) "k2"
      = Except.ok 1 :=
  ⟨by decide,
   Close_unregisters_key memSource.ops demoEngine twoSessions (demoDemuxer 2) "k2" (by decide)⟩

theorem processTag_ok (t : CTag) (h : CTag.wellFormed t = true) :
    processTag t = some ⟨t.Targets.map convertTarget, t.SimpleTags.map convertSimpleTag⟩ := by
  simp only [CTag.wellFormed, Bool.and_eq_true, decide_eq_true_eq] at h
  have e1 := sliceLoop_length (fun x => some (convertTarget x)) convertTarget t.Targets
    (fun _ _ => rfl)
  have e2 := sliceLoop_length (fun x => some (convertSimpleTag x)) convertSimpleTag
    t.SimpleTags (fun _ _ => rfl)
  simp only [processTag, h.1, h.2, e1, e2]

theorem forall₂_tags (tags : List CTag) (h : ∀ t ∈ tags, CTag.wellFormed t = true) :
    List.Forall₂ (fun (t : CTag) (o : Tag) =>
        o.Targets.length = t.nTargets ∧ o.SimpleTags.length = t.nSimpleTags ∧
        o.Targets = t.Targets.map convertTarget ∧
        o.SimpleTags = t.SimpleTags.map convertSimpleTag) tags
      (tags.map (fun t => (⟨t.Targets.map convertTarget,
        t.SimpleTags.map convertSimpleTag⟩ : Tag))) := by
  induction tags with
  | nil => exact List.Forall₂.nil
  | cons t rest ih =>
    refine List.Forall₂.cons ?_ (ih (fun x hx => h x (List.mem_cons_of_mem t hx)))
    have ht := h t (List.mem_cons_self t rest)
    simp only [CTag.wellFormed, Bool.and_eq_true, decide_eq_true_eq] at ht
    simp [ht.1, ht.2]

/-- C12: `GetTags` has no error result and mirrors the engine-reported
counts: for an engine-reported tag array of count `c` (the counts equal to
the lengths of the arrays they describe) it returns exactly `c` tags, the
empty sequence when `c` is 0, and the i-th tag has exactly `nTargets` targets
and `nSimpleTags` simple tags, the engine's entries converted in order. -/
theorem GetTags_mirrors_counts {μ : Type} (eng : Engine μ) (d : Demuxer μ)
    (tags : List CTag) (he : eng.mkv_GetTags d.m = (tags, tags.length))
    (hw : ∀ t ∈ tags, CTag.wellFormed t = true) :
    ∃ out, Demuxer.GetTags eng d = some out ∧ out.length = tags.length ∧
      (tags.length = 0 → out = []) ∧
      List.Forall₂ (fun (t : CTag) (o : Tag) =>
        o.Targets.length = t.nTargets ∧ o.SimpleTags.length = t.nSimpleTags ∧
        o.Targets = t.Targets.map convertTarget ∧
        o.SimpleTags = t.SimpleTags.map convertSimpleTag) tags out := by
  have hl := sliceLoop_length processTag
    (fun t => (⟨t.Targets.map convertTarget, t.SimpleTags.map convertSimpleTag⟩ : Tag))
    tags (fun t ht => processTag_ok t (hw t ht))
  refine ⟨tags.map (fun t => (⟨t.Targets.map convertTarget,
    t.SimpleTags.map convertSimpleTag⟩ : Tag)), ?_, by simp, ?_, forall₂_tags tags hw⟩
  · simp only [Demuxer.GetTags, he]
    split_ifs with h0
    · have hnil : tags = [] := List.length_eq_zero.mp h0
      subst hnil
      rfl
    · exact hl
  · intro h0
    have hnil : tags = [] := List.length_eq_zero.mp h0
    subst hnil
    rfl

/-- C12, at a session with two tags and at a session with none. -/
theorem GetTags_mirrors_counts_witness :
    (∃ out, Demuxer.GetTags demoEngine (demoDemuxer 2) = some out ∧
      out.length = demoTags.length ∧ (demoTags.length = 0 → out = []) ∧
      List.Forall₂ (fun (t : CTag) (o : Tag) =>
        o.Targets.length = t.nTargets ∧ o.SimpleTags.length = t.nSimpleTags ∧
        o.Targets = t.Targets.map convertTarget ∧
        o.SimpleTags = t.SimpleTags.map convertSimpleTag) demoTags out) ∧
    (∃ out, Demuxer.GetTags demoEngine (demoDemuxer 0) = some out ∧
      out.length = ([] : List CTag).length ∧ (([] : List CTag).length = 0 → out = []) ∧
      List.Forall₂ (fun (t : CTag) (o : Tag) =>
        o.Targets.length = t.nTargets ∧ o.SimpleTags.length = t.nSimpleTags ∧
        o.Targets = t.Targets.map convertTarget ∧
        o.SimpleTags = t.SimpleTags.map convertSimpleTag) [] out) :=
  ⟨GetTags_mirrors_counts demoEngine (demoDemuxer 2) demoTags rfl (by decide),
   GetTags_mirrors_counts demoEngine (demoDemuxer 0) [] rfl (by decide)⟩

/-- C14: when a read succeeds with packet `pkt`, its `Track` is the
engine-reported track number modulo 256; it equals the engine's number
exactly when that number is below 256; and a second successful read whose
engine track number differs from the first by a multiple of 256 yields the
same `Track`. -/
theorem ReadPacketMask_track_mod_256 {σ μ : Type} (rs : ReadSeeker σ) (eng eng' : Engine μ)
    (w w' : World σ) (d d' : Demuxer μ) (mask mask' : Nat) (pkt pkt' : Packet)
    (h : (Demuxer.ReadPacketMask rs eng w d mask).2.2 = Except.ok (some pkt, none))
    (h' : (Demuxer.ReadPacketMask rs eng' w' d' mask').2.2 = Except.ok (some pkt', none)) :
    pkt.Track = ((eng.mkv_ReadFrame d.m mask).run rs d.key w).2.track % 256 ∧
    (pkt.Track = ((eng.mkv_ReadFrame d.m mask).run rs d.key w).2.track ↔
      ((eng.mkv_ReadFrame d.m mask).run rs d.key w).2.track < 256) ∧
    ((∃ k, ((eng'.mkv_ReadFrame d'.m mask').run rs d'.key w').2.track
        = ((eng.mkv_ReadFrame d.m mask).run rs d.key w).2.track + 256 * k) →
      pkt'.Track = pkt.Track) := by
  have key : ∀ (e : Engine μ) (v : World σ) (x : Demuxer μ) (m : Nat) (q : Packet),
      (Demuxer.ReadPacketMask rs e v x m).2.2 = Except.ok (some q, none) →
      q.Track = ((e.mkv_ReadFrame x.m m).run rs x.key v).2.track % 256 := by
    intro e v x m q hq
    generalize hf : ((e.mkv_ReadFrame x.m m).run rs x.key v) = res at hq ⊢
    simp only [Demuxer.ReadPacketMask, hf] at hq
    split_ifs at hq with h1 h0
    · cases hq
    · cases hq
    · split at hq
      · cases hq
      · cases hq
        rfl
  have ht := key eng w d mask pkt h
  have ht' := key eng' w' d' mask' pkt' h'
  refine ⟨ht, ?_, ?_⟩
  · rw [ht]
    constructor
    · intro hm
      have := Nat.mod_lt ((eng.mkv_ReadFrame d.m mask).run rs d.key w).2.track
        (by decide : 256 > 0)
      omega
    · intro hlt
      exact Nat.mod_eq_of_lt hlt
  · rintro ⟨k, hk⟩
    rw [ht, ht', hk, Nat.add_mul_mod_self_left]

/-- C14, at an engine track number 1 and an engine track number 257: both
reads succeed and both packets carry `Track` 1. -/
theorem ReadPacketMask_track_mod_256_witness :
    (Demuxer.ReadPacketMask memSource.ops demoEngineTrack1 demoWorld (demoDemuxer 2) 0).2.2
      = Except.ok (some (Packet.mk 1 0 1 0 [9] 0 0), none) ∧
    (Demuxer.ReadPacketMask memSource.ops demoEngine demoWorld (demoDemuxer 2) 0).2.2
      = Except.ok (some (Packet.mk 1 40 80 1000 [1, 2, 3] 4 (-1)), none) ∧
    ((demoEngine.mkv_ReadFrame (demoDemuxer 2).m 0).run memSource.ops (demoDemuxer 2).key
      demoWorld).2.track = 257 ∧
    (Packet.mk 1 0 1 0 [9] 0 0).Track
      = ((demoEngineTrack1.mkv_ReadFrame (demoDemuxer 2).m 0).run memSource.ops
          (demoDemuxer 2).key demoWorld).2.track % 256 ∧
    ((Packet.mk 1 0 1 0 [9] 0 0).Track
      = ((demoEngineTrack1.mkv_ReadFrame (demoDemuxer 2).m 0).run memSource.ops
          (demoDemuxer 2).key demoWorld).2.track ↔
      ((demoEngineTrack1.mkv_ReadFrame (demoDemuxer 2).m 0).run memSource.ops
          (demoDemuxer 2).key demoWorld).2.track < 256) ∧
    (Packet.mk 1 40 80 1000 [1, 2, 3] 4 (-1)).Track = (Packet.mk 1 0 1 0 [9] 0 0).Track := by
  have t := ReadPacketMask_track_mod_256 memSource.ops demoEngineTrack1 demoEngine
    demoWorld demoWorld (demoDemuxer 2) (demoDemuxer 2) 0 0
    (Packet.mk 1 0 1 0 [9] 0 0) (Packet.mk 1 40 80 1000 [1, 2, 3] 4 (-1)) rfl rfl
  exact ⟨rfl, rfl, rfl, t.1, t.2.1, t.2.2 ⟨1, rfl⟩⟩

end Matroska
